import Mathlib

/-!
Verification of `openapi_to_human.py` (OpenAPI → Markdown reference generator).

A shallow embedding of the source program in Lean 4.  The in-memory document
tree produced by the YAML/JSON loader is modelled by the inductive type `Json`
(mappings keep insertion order, as Python dicts do).  Every source function is
translated as a total Lean function; totality of the translation mirrors the
source's defensive guards (each place where a Python primitive could raise is
protected in the source by an `isinstance`/truthiness check, which appears
here as the corresponding pattern match).
-/

/-- A parsed YAML/JSON document tree.  Python `None` is `null`; mappings are
association lists in insertion order (Python dicts preserve it). -/
inductive Json where
  | null : Json
  | bool (b : Bool) : Json
  | num (n : Int) : Json
  | str (s : String) : Json
  | arr (elems : List Json) : Json
  | obj (entries : List (String × Json)) : Json

/-- Python truthiness of a document value (`bool(x)`). -/
def Json.truthy : Json → Bool
  | .null => false
  | .bool b => b
  | .num n => n != 0
  | .str s => !s.isEmpty
  | .arr l => !l.isEmpty
  | .obj l => !l.isEmpty

/-- Python `x or y` on document values. -/
def pyOr (a b : Json) : Json := if a.truthy then a else b

/-- Python `isinstance(x, dict)`. -/
def Json.isObj : Json → Bool
  | .obj _ => true
  | _ => false

/-- Python `isinstance(x, list)`. -/
def Json.isList : Json → Bool
  | .arr _ => true
  | _ => false

/-- First binding of a key in a mapping (Python dict lookup; dicts have unique
keys, so the first binding is the binding). -/
def alookup (kvs : List (String × Json)) (k : String) : Option Json :=
  match kvs with
  | [] => none
  | (k', v) :: rest => if k' = k then some v else alookup rest k

/-- Python `d.get(k)` on a dict: the value, or `None` when the key is absent. -/
def jget (kvs : List (String × Json)) (k : String) : Json :=
  (alookup kvs k).getD .null

/-- Python `k in d` on a dict. -/
def jhas (kvs : List (String × Json)) (k : String) : Bool :=
  (alookup kvs k).isSome

/-- Python `v == c` for a string literal `c`: only a string with those exact
characters compares equal (no other Python value equals a `str`). -/
def Json.eqStr : Json → String → Bool
  | .str s, c => s = c
  | _, _ => false

/-- Python `x in l` for a list, where `x` is a string (`any(e == x for e in l)`). -/
def pyElemStr (x : String) (l : List Json) : Bool := l.any (fun e => e.eqStr x)

/-- Python `x is None` / `x is not None` (negated) on a document value. -/
def Json.isNull : Json → Bool
  | .null => true
  | _ => false

/-- Characters removed by Python `str.strip()` (the ASCII whitespace set). -/
def isPySpace (c : Char) : Bool :=
  c = ' ' || c = '\t' || c = '\n' || c = '\r' || c = Char.ofNat 11 || c = Char.ofNat 12

/-- Python `s.strip()` on the character list. -/
def stripChars (l : List Char) : List Char :=
  ((l.dropWhile isPySpace).reverse.dropWhile isPySpace).reverse

/-- Python `s.strip()`. -/
def pyStrip (s : String) : String := ⟨stripChars s.data⟩

/-- Python `s.rstrip()`. -/
def pyRstrip (s : String) : String := ⟨(s.data.reverse.dropWhile isPySpace).reverse⟩

/-- Source `md_escape`: `text.replace("\n", " ").strip()`. -/
def md_escape (s : String) : String :=
  pyStrip ⟨s.data.map (fun c => if c = '\n' then ' ' else c)⟩

/-- Source `md_h1`. -/
def md_h1 (title : String) : String := "# " ++ title ++ "\n"

/-- Source `md_h2`. -/
def md_h2 (title : String) : String := "\n## " ++ title ++ "\n"

/-- Source `md_h3`. -/
def md_h3 (title : String) : String := "\n### " ++ title ++ "\n"

/-- Python `"\n".join(l)`. -/
def joinNL : List String → String
  | [] => ""
  | [s] => s
  | s :: rest => s ++ "\n" ++ joinNL rest

/-- The decimal digit character for `d < 10`. -/
def digitChar (d : Nat) : Char := Char.ofNat (48 + d)

/-- Decimal digits, most significant first, by structural recursion on a fuel
bound (the fuel `n + 1` always suffices since `n / 10 < n` for `n ≥ 10`). -/
def natDigitsAux : Nat → Nat → List Char
  | 0, _ => []
  | fuel + 1, n =>
    if n < 10 then [digitChar n]
    else natDigitsAux fuel (n / 10) ++ [digitChar (n % 10)]

/-- Decimal digits of a natural number, most significant first (the digit
sequence Python prints for a nonnegative `int`). -/
def natDigits (n : Nat) : List Char := natDigitsAux (n + 1) n

/-- Python `str(n)` for an `int`. -/
def intRepr (n : Int) : String :=
  if n < 0 then "-" ++ ⟨natDigits (-n).toNat⟩ else ⟨natDigits n.toNat⟩

/-- A single-quote character, used by Python `repr` of strings. -/
def squote : String := String.singleton (Char.ofNat 39)

/-- Escaping of one character inside a Python single-quoted string `repr`. -/
def reprEscChar (c : Char) : String :=
  if c = '\\' then "\\\\"
  else if c = Char.ofNat 39 then "\\" ++ squote
  else if c = '\n' then "\\n"
  else if c = '\r' then "\\r"
  else if c = '\t' then "\\t"
  else String.singleton c

/-- Python `repr` of a string, modelled as single-quoted with basic escapes. -/
def pyStrRepr (s : String) : String :=
  squote ++ String.join (s.data.map reprEscChar) ++ squote

/-- Python `", ".join(l)`. -/
def joinComma : List String → String
  | [] => ""
  | [s] => s
  | s :: rest => s ++ ", " ++ joinComma rest

mutual

/-- Python `repr()` of a document value (used by `str()` on containers). -/
def pyRepr : Json → String
  | .null => "None"
  | .bool true => "True"
  | .bool false => "False"
  | .num n => intRepr n
  | .str s => pyStrRepr s
  | .arr l => "[" ++ joinComma (pyReprArr l) ++ "]"
  | .obj l => "\x7b" ++ joinComma (pyReprObj l) ++ "\x7d"

/-- Pieces of the `repr` of a Python list. -/
def pyReprArr : List Json → List String
  | [] => []
  | j :: js => pyRepr j :: pyReprArr js

/-- Pieces of the `repr` of a Python dict. -/
def pyReprObj : List (String × Json) → List String
  | [] => []
  | (k, v) :: rest => (pyStrRepr k ++ ": " ++ pyRepr v) :: pyReprObj rest

end

/-- Python `str()` of a document value (the f-string conversion the source
applies to loosely-typed fields). -/
def pyStr : Json → String
  | .str s => s
  | j => pyRepr j

/-- Python format `f"{n:04d}"`: the decimal form of `n`, zero-padded on the
left to a total width of four characters (sign included). -/
def pad4 (n : Int) : String :=
  if n < 0 then
    let ds := natDigits (-n).toNat
    ⟨'-' :: (List.replicate (3 - ds.length) '0' ++ ds)⟩
  else
    let ds := natDigits n.toNat
    ⟨List.replicate (4 - ds.length) '0' ++ ds⟩

/-- Decimal value of one digit character, if it is one. -/
def digitVal (c : Char) : Option Nat :=
  if '0' ≤ c ∧ c ≤ '9' then some (c.toNat - 48) else none

/-- Digits (with Python's underscore-between-digits rule) after the first
digit of an integer literal. -/
def digitsCore (acc : Nat) : List Char → Option Nat
  | [] => some acc
  | c :: cs =>
    match digitVal c with
    | some d => digitsCore (10 * acc + d) cs
    | none =>
      if c = '_' then
        match cs with
        | c2 :: cs2 =>
          match digitVal c2 with
          | some d2 => digitsCore (10 * acc + d2) cs2
          | none => none
        | [] => none
      else none

/-- A nonempty run of decimal digits (Python integer-literal digits). -/
def parseDigits : List Char → Option Nat
  | [] => none
  | c :: cs =>
    match digitVal c with
    | some d => digitsCore d cs
    | none => none

/-- Python `int(s)` for a string: surrounding whitespace stripped, an optional
sign, then decimal digits; `none` when `int` would raise `ValueError`. -/
def pyIntOfString (s : String) : Option Int :=
  match stripChars s.data with
  | '+' :: r => (parseDigits r).map Int.ofNat
  | '-' :: r => (parseDigits r).map (fun n => -(n : Int))
  | cs => (parseDigits cs).map Int.ofNat

/-- Escaping of one character inside a JSON string literal as `json.dumps`
writes it (`ensure_ascii=False`). -/
def jsonEscChar (c : Char) : String :=
  if c = '"' then "\\\""
  else if c = '\\' then "\\\\"
  else if c = '\n' then "\\n"
  else if c = '\r' then "\\r"
  else if c = '\t' then "\\t"
  else String.singleton c

/-- JSON string literal as written by `json.dumps`. -/
def jsonQuote (s : String) : String :=
  "\"" ++ String.join (s.data.map jsonEscChar) ++ "\""

/-- Python `",\n".join(l)` (the separator `json.dumps` uses with `indent`). -/
def joinCommaNL : List String → String
  | [] => ""
  | [s] => s
  | s :: rest => s ++ ",\n" ++ joinCommaNL rest

mutual

/-- Python `json.dumps(x, ensure_ascii=False, indent=2)` at nesting depth `d`. -/
def jsonDumps (d : Nat) : Json → String
  | .null => "null"
  | .bool true => "true"
  | .bool false => "false"
  | .num n => intRepr n
  | .str s => jsonQuote s
  | .arr [] => "[]"
  | .arr (x :: xs) =>
    "[\n" ++ joinCommaNL (jsonDumpsArr (d + 1) (x :: xs))
      ++ "\n" ++ ⟨List.replicate (2 * d) ' '⟩ ++ "]"
  | .obj [] => "\x7b\x7d"
  | .obj (kv :: kvs) =>
    "\x7b\n" ++ joinCommaNL (jsonDumpsObj (d + 1) (kv :: kvs))
      ++ "\n" ++ ⟨List.replicate (2 * d) ' '⟩ ++ "\x7d"

/-- Indented items of a dumped JSON array. -/
def jsonDumpsArr (d : Nat) : List Json → List String
  | [] => []
  | j :: js => (⟨List.replicate (2 * d) ' '⟩ ++ jsonDumps d j) :: jsonDumpsArr d js

/-- Indented entries of a dumped JSON object. -/
def jsonDumpsObj (d : Nat) : List (String × Json) → List String
  | [] => []
  | (k, v) :: rest =>
    (⟨List.replicate (2 * d) ' '⟩ ++ jsonQuote k ++ ": " ++ jsonDumps d v) :: jsonDumpsObj d rest

end

/-- ASCII lower-casing of one character (Python `str.lower` on ASCII data). -/
def pyLowerChar (c : Char) : Char :=
  if 'A' ≤ c ∧ c ≤ 'Z' then Char.ofNat (c.toNat + 32) else c

/-- ASCII upper-casing of one character (Python `str.upper` on ASCII data). -/
def pyUpperChar (c : Char) : Char :=
  if 'a' ≤ c ∧ c ≤ 'z' then Char.ofNat (c.toNat - 32) else c

/-- Python `s.lower()`. -/
def pyLower (s : String) : String := ⟨s.data.map pyLowerChar⟩

/-- Python `s.upper()`. -/
def pyUpper (s : String) : String := ⟨s.data.map pyUpperChar⟩

/-- Python `s < t` on strings: lexicographic comparison of code points. -/
def charsLt : List Char → List Char → Bool
  | _, [] => false
  | [], _ :: _ => true
  | a :: as, b :: bs => if a < b then true else if b < a then false else charsLt as bs

/-- Python `s <= t` on strings: lexicographic comparison of code points. -/
def charsLe : List Char → List Char → Bool
  | [], _ => true
  | _ :: _, [] => false
  | a :: as, b :: bs => if a < b then true else if b < a then false else charsLe as bs

/-- Python `s < t` on strings. -/
def pyLt (s t : String) : Bool := charsLt s.data t.data

/-- Python `s <= t` on strings. -/
def pyLe (s t : String) : Bool := charsLe s.data t.data

/-- One collected operation: `(method, path, operationObject)`, the operation
object being a mapping (`collect_operations` only keeps mapping values). -/
abbrev Operation := String × String × List (String × Json)

/-- The sort key `lambda t: (t[1], t[0])` of `collect_operations`, as the total
preorder (Python tuple `<=`) that the stable `sorted` orders by. -/
def opKeyLe (a b : Operation) : Prop :=
  (pyLt a.2.1 b.2.1 || (a.2.1 == b.2.1 && pyLe a.1 b.1)) = true

instance : DecidableRel opKeyLe := fun a b => by unfold opKeyLe; infer_instance

/-- The seven HTTP method tokens recognized by `collect_operations`. -/
def httpMethods : List String := ["get", "post", "put", "patch", "delete", "head", "options"]

/-- One recognized-method entry of a path item: a single operation triple when
the operation object is a mapping, nothing otherwise (`isinstance(op, dict)`
guard of the source loop). -/
def method_ops (m path : String) : Json → List Operation
  | .obj entries => [(pyUpper m, path, entries)]
  | _ => []

/-- Inner loop of `collect_operations` over one path item's entries. -/
def collect_from_item (path : String) : List (String × Json) → List Operation
  | [] => []
  | (method, op) :: rest =>
    if pyLower method ∈ httpMethods then
      method_ops (pyLower method) path op ++ collect_from_item path rest
    else collect_from_item path rest

/-- The operations of one path item: its recognized entries when it is a
mapping, nothing otherwise (non-mapping path items are skipped). -/
def path_item_ops (path : String) : Json → List Operation
  | .obj entries => collect_from_item path entries
  | _ => []

/-- Outer loop of `collect_operations` over the entries of `paths`. -/
def collect_from_paths : List (String × Json) → List Operation
  | [] => []
  | (path, pathItem) :: rest => path_item_ops path pathItem ++ collect_from_paths rest

/-- The entries of `paths` as the source reads them:
`paths = spec.get("paths") or {}` followed by the `isinstance(paths, dict)`
guard (non-mapping `paths` means no entries). -/
def pathsEntries (spec : List (String × Json)) : List (String × Json) :=
  match pyOr (jget spec "paths") (.obj []) with
  | .obj entries => entries
  | _ => []

/-- Source `collect_operations`: recognized-method/mapping pairs from `paths`,
stably sorted by `(path, method)` (Python `sorted` with that key). -/
def collect_operations (spec : List (String × Json)) : List Operation :=
  List.insertionSort opKeyLe (collect_from_paths (pathsEntries spec))

/-- Source `first_server_url`: `servers[0].url` guarded exactly as written. -/
def first_server_url (spec : List (String × Json)) : Json :=
  let servers := pyOr (jget spec "servers") (.arr [])
  match servers with
  | .arr (first :: _) =>
    match first with
    | .obj entries => jget entries "url"
    | _ => .null
  | _ => .null

/-- One entry of `securitySchemes` is an HTTP bearer scheme: it is a mapping
with `type == "http"` and `str(scheme).lower() == "bearer"`. -/
def isBearerScheme : Json → Bool
  | .obj s => (jget s "type").eqStr "http" && pyLower (pyStr ((alookup s "scheme").getD (.str ""))) == "bearer"
  | _ => false

/-- The entries of `components.securitySchemes` as `detect_bearer_auth` reads
them (`or {}` fallbacks and `isinstance` guards as in the source). -/
def securitySchemeEntries (spec : List (String × Json)) : List (String × Json) :=
  let components := pyOr (jget spec "components") (.obj [])
  let sec :=
    match components with
    | .obj ce => pyOr (jget ce "securitySchemes") (.obj [])
    | _ => .obj []
  match sec with
  | .obj entries => entries
  | _ => []

/-- Source `detect_bearer_auth`: scan the security schemes for an HTTP bearer
scheme, `False` when the structure is absent or malformed. -/
def detect_bearer_auth (spec : List (String × Json)) : Bool :=
  (securitySchemeEntries spec).any (fun kv => isBearerScheme kv.2)

/-- Source `extract_json_example`: the inline `example` value when the key is
present, else the first entry of `examples` when it has a `value` field, else
`None` (returned as `null`; Python conflates both, since a JSON `null` example
and "no example" are both `None`). -/
def extract_json_example (content_obj : Json) : Json :=
  match content_obj with
  | .obj ce =>
    match alookup ce "application/json" with
    | some (.obj aj) =>
      if jhas aj "example" then jget aj "example"
      else
        match jget aj "examples" with
        | .obj ((_, ex) :: _) =>
          match ex with
          | .obj exEntries => if jhas exEntries "value" then jget exEntries "value" else .null
          | _ => .null
        | _ => .null
    | _ => .null
  | _ => .null

/-- One request-body field row, the dict
`{name, type, required ("yes"/"no"), notes}` built by `extract_request_fields`. -/
structure FieldRow where
  name : String
  type : String
  required : String
  notes : String
deriving DecidableEq, Repr

/-- Source line `ftype = str(field_schema.get("type") or "object")`. -/
def field_type (field_schema : List (String × Json)) : String :=
  pyStr (pyOr (jget field_schema "type") (.str "object"))

/-- The `description` part of a field's notes (source lines 198–200). -/
def field_desc_notes (field_schema : List (String × Json)) : String :=
  if jhas field_schema "description" then
    md_escape (pyStr (pyOr (jget field_schema "description") (.str "")))
  else ""

/-- A field's notes: description part, then `"Example: `<literal>`"` appended
(space-separated) only when `field_schema.get("example")` is not `None`
(source lines 198–203). -/
def field_notes (field_schema : List (String × Json)) : String :=
  let notes := field_desc_notes field_schema
  let exVal := jget field_schema "example"
  if !exVal.isNull then
    (if !notes.isEmpty then notes ++ " " else "") ++ "Example: `" ++ pyStr exVal ++ "`"
  else notes

/-- Body of the property loop of `extract_request_fields` (source lines
194–211): one `Field` from one `properties` entry; a non-mapping property
schema is treated as `{}`. -/
def mkField (required : List Json) (field_name : String) (field_schema : Json) : FieldRow :=
  let fs : List (String × Json) :=
    match field_schema with
    | .obj entries => entries
    | _ => []
  { name := field_name
    type := field_type fs
    required := if pyElemStr field_name required then "yes" else "no"
    notes := field_notes fs }

/-- The sort key `lambda r: (r["required"] != "yes", r["name"])` of
`extract_request_fields`, as the total preorder (Python tuple `<=`) that the
stable in-place `sort` orders by. -/
def fieldKeyLe (a b : FieldRow) : Prop :=
  ((!decide (a.required ≠ "yes") && decide (b.required ≠ "yes"))
    || (decide (a.required ≠ "yes") == decide (b.required ≠ "yes") && pyLe a.name b.name)) = true

instance : DecidableRel fieldKeyLe := fun a b => by unfold fieldKeyLe; infer_instance

/-- Source `extract_request_fields`: `(fields, has_json_body)` for one
operation object, guarded exactly as the source is. -/
def extract_request_fields (op : List (String × Json)) : List FieldRow × Bool :=
  match jget op "requestBody" with
  | .obj rb =>
    match jget rb "content" with
    | .obj content =>
      match jget content "application/json" with
      | .obj appJson =>
        match jget appJson "schema" with
        | .obj schema =>
          if !(jget schema "type").eqStr "object" then ([], true)
          else
            let required :=
              match pyOr (jget schema "required") (.arr []) with
              | .arr l => l
              | _ => []
            let props :=
              match pyOr (jget schema "properties") (.obj []) with
              | .obj l => l
              | _ => []
            (List.insertionSort fieldKeyLe (props.map (fun kv => mkField required kv.1 kv.2)), true)
        | _ => ([], true)
      | _ => ([], false)
    | _ => ([], false)
  | _ => ([], false)

/-- Source `render_endpoint_summary`. -/
def render_endpoint_summary (ops : List Operation) : String :=
  joinNL
    ([md_h2 "Endpoint summary", "| Method | Path | Purpose |", "|---:|---|---|"]
      ++ ops.map (fun t =>
        let purpose := md_escape (pyStr (pyOr (jget t.2.2 "summary") (pyOr (jget t.2.2 "description") (.str ""))))
        "| " ++ t.1 ++ " | `" ++ t.2.1 ++ "` | " ++ purpose ++ " |")
      ++ [""])

/-- Source `render_auth_section`: one of two fixed text variants. -/
def render_auth_section (has_bearer : Bool) : String :=
  joinNL
    ([md_h2 "Authentication"]
      ++ (if has_bearer then
            ["All requests require a bearer token:", "", "`Authorization: Bearer <token>`"]
          else
            ["Authentication is not defined in this sample OpenAPI spec."])
      ++ [""])

/-- Source `render_required_headers`. -/
def render_required_headers (has_bearer has_json_body : Bool) : String :=
  let headers :=
    (if has_bearer then ["`Authorization: Bearer <token>`"] else [])
      ++ (if has_json_body then ["`Content-Type: application/json`"] else [])
  joinNL
    ([md_h3 "Required headers"]
      ++ (if !headers.isEmpty then headers.map (fun h => "- " ++ h) else ["None."])
      ++ [""])

/-- Source `render_request_body_fields`. -/
def render_request_body_fields (fields : List FieldRow) (has_json_body : Bool) : String :=
  if !has_json_body then
    joinNL [md_h3 "Request body fields", "This endpoint does not define a request body.", ""]
  else if fields.isEmpty then
    joinNL [md_h3 "Request body fields",
      "Request body schema is JSON, but fields are not expanded in this MVP.", ""]
  else
    joinNL
      ([md_h3 "Request body fields", "| Field | Type | Required | Notes |", "|---|---|:---:|---|"]
        ++ fields.map (fun f =>
          "| `" ++ f.name ++ "` | " ++ f.type ++ " | " ++ f.required ++ " | " ++ md_escape f.notes ++ " |")
        ++ [""])

/-- Source `sort_key` inside `render_responses`: `(0, f"{int(code):04d}")` for
codes `int` accepts, `(1, code)` otherwise. -/
def response_sort_key (code : String) : Nat × String :=
  match pyIntOfString code with
  | some n => (0, pad4 n)
  | none => (1, code)

/-- The response-code order: Python tuple `<=` on `response_sort_key`, the
total preorder that `sorted(responses.keys(), key=sort_key)` orders by. -/
def respKeyLe (a b : String) : Prop :=
  (decide ((response_sort_key a).1 < (response_sort_key b).1)
    || ((response_sort_key a).1 == (response_sort_key b).1
        && pyLe (response_sort_key a).2 (response_sort_key b).2)) = true

instance : DecidableRel respKeyLe := fun a b => by unfold respKeyLe; infer_instance

/-- The codes of a `responses` mapping in rendered order:
`sorted(responses.keys(), key=sort_key)`. -/
def response_code_order (responses : List (String × Json)) : List String :=
  List.insertionSort respKeyLe (responses.map Prod.fst)

/-- The lines `render_responses` emits for one response code. -/
def render_one_response (responses : List (String × Json)) (code : String) : List String :=
  match alookup responses code with
  | some (.obj r) =>
    let desc := md_escape (pyStr (pyOr (jget r "description") (.str "")))
    [if !desc.isEmpty then "**" ++ code ++ "** — " ++ desc else "**" ++ code ++ "**"]
      ++ (let content := pyOr (jget r "content") (.obj [])
          let ex := if content.isObj then extract_json_example content else .null
          if !ex.isNull then ["", "```json", jsonDumps 0 ex, "```"] else [])
      ++ [""]
  | _ => []

/-- Source `render_responses`. -/
def render_responses (op : List (String × Json)) : String :=
  let responses := pyOr (jget op "responses") (.obj [])
  match responses with
  | .obj ((kv0 : String × Json) :: rest) =>
    joinNL ([md_h3 "Responses"]
      ++ (response_code_order (kv0 :: rest)).flatMap (render_one_response (kv0 :: rest)))
  | _ => joinNL [md_h3 "Responses", "No responses defined.", ""]

/-- The lines `render_endpoint_sections` emits for one operation. -/
def render_one_endpoint (has_bearer : Bool) (t : Operation) : List String :=
  let op := t.2.2
  [md_h2 (t.1 ++ " " ++ t.2.1)]
    ++ (let desc := pyOr (jget op "description") (jget op "summary")
        if desc.truthy then [md_escape (pyStr desc), ""] else [])
    ++ (let fb := extract_request_fields op
        [render_required_headers has_bearer fb.2,
         render_request_body_fields fb.1 fb.2,
         render_responses op])

/-- Source `render_endpoint_sections`. -/
def render_endpoint_sections (ops : List Operation) (has_bearer : Bool) : String :=
  pyRstrip (joinNL (ops.flatMap (render_one_endpoint has_bearer))) ++ "\n"

/-- Source line 317: the `info.title` value (guarded). -/
def spec_title (spec : List (String × Json)) : Json :=
  match jget spec "info" with
  | .obj info => jget info "title"
  | _ => .null

/-- Source `build_markdown` for a document whose root is a mapping. -/
def build_markdown (spec : List (String × Json)) : String :=
  let title := let t := spec_title spec; if !t.truthy then .str "API reference" else t
  let ops := collect_operations spec
  let base_url := first_server_url spec
  let has_bearer := detect_bearer_auth spec
  let out :=
    [pyRstrip (md_h1 (pyStr title ++ " — reference")) ++ "\n",
     "This page is a human-readable reference generated from an OpenAPI spec.\n"]
      ++ (if base_url.truthy then ["**Base URL:** `" ++ pyStr base_url ++ "`\n"] else [])
      ++ (if !ops.isEmpty then [render_endpoint_summary ops] else ["No operations found in `paths`.\n"])
      ++ [render_auth_section has_bearer]
      ++ (if !ops.isEmpty then [render_endpoint_sections ops has_bearer] else [])
  pyStrip (joinNL out) ++ "\n"

/-- The pattern `pat` occurs at the head of `l`. -/
def prefAt : List Char → List Char → Bool
  | [], _ => true
  | _ :: _, [] => false
  | p :: ps, c :: cs => p == c && prefAt ps cs

/-- The pattern `pat` occurs somewhere in `l`. -/
def subSearch (pat : List Char) : List Char → Bool
  | [] => prefAt pat []
  | c :: cs => prefAt pat (c :: cs) || subSearch pat cs

/-- `pat` occurs as a contiguous substring of `s`. -/
def strContains (s pat : String) : Bool := subSearch pat.data s.data

/-- Modelled from the spec (§4.6, §7, §8): the complete document rendered for
a spec without operations — title line, intro line, optional base-URL line,
the fixed fallback `"No operations found in `paths`."` in place of the
summary table, the authentication section, and no per-operation sections. -/
def no_ops_reference_doc (spec : List (String × Json)) : String :=
  let title := let t := spec_title spec; if !t.truthy then .str "API reference" else t
  let base_url := first_server_url spec
  let out :=
    [pyRstrip (md_h1 (pyStr title ++ " — reference")) ++ "\n",
     "This page is a human-readable reference generated from an OpenAPI spec.\n"]
      ++ (if base_url.truthy then ["**Base URL:** `" ++ pyStr base_url ++ "`\n"] else [])
      ++ ["No operations found in `paths`.\n"]
      ++ [render_auth_section (detect_bearer_auth spec)]
  pyStrip (joinNL out) ++ "\n"

/-- An operation whose only request-body property `a` has no `type` of its own
but does have a `oneOf` key (concrete input for claim C2). -/
def oneOfPropOp : List (String × Json) :=
  [("requestBody", .obj
    [("content", .obj
      [("application/json", .obj
        [("schema", .obj
          [("type", .str "object"),
           ("properties", .obj
             [("a", .obj [("oneOf", .arr [.obj [("type", .str "string")]])])])])])])])]

/-- An operation whose request-body schema has `properties` but omits `type`
(concrete input for claim C3). -/
def untypedSchemaOp : List (String × Json) :=
  [("requestBody", .obj
    [("content", .obj
      [("application/json", .obj
        [("schema", .obj
          [("properties", .obj [("a", .obj [("type", .str "string")])])])])])])]

/-- A `responses` mapping with two numeric codes (one above 9999) and two
non-numeric codes whose encounter order is `default` before `4XX` (concrete
input for claim C4). -/
def mixedCodesResponses : List (String × Json) :=
  [("default", .obj [("description", .str "d")]),
   ("4XX", .obj [("description", .str "e")]),
   ("10000", .obj [("description", .str "f")]),
   ("9999", .obj [("description", .str "g")])]

/-- A JSON content mapping carrying both `example: 1` and
`examples: {x: {value: 2}}` (concrete input for claim C5). -/
def bothExamplesContent : Json :=
  .obj [("application/json", .obj
    [("example", .num 1),
     ("examples", .obj [("x", .obj [("value", .num 2)])])])]

/-- An operation with required fields `b`, `a` and optional field `c`, its
properties listed as `c`, `b`, `a` (concrete input for claim C6). -/
def abcFieldsOp : List (String × Json) :=
  [("requestBody", .obj
    [("content", .obj
      [("application/json", .obj
        [("schema", .obj
          [("type", .str "object"),
           ("required", .arr [.str "b", .str "a"]),
           ("properties", .obj
             [("c", .obj [("type", .str "number")]),
              ("b", .obj [("type", .str "string")]),
              ("a", .obj [("type", .str "integer")])])])])])])]

/-- A document with one path carrying a `get` and an unrecognized `foo` key,
and a second non-mapping path item (concrete input for claim C7's witness). -/
def twoPathsSpec : List (String × Json) :=
  [("paths", .obj
    [("/b", .obj [("get", .obj [("summary", .str "B")]), ("foo", .obj [])]),
     ("/a", .obj [("POST", .obj []), ("get", .str "nope")]),
     ("/c", .str "skipped")])]

/-- A document declaring an HTTP bearer security scheme (concrete input for
claim C8's witness). -/
def bearerSpec : List (String × Json) :=
  [("components", .obj
    [("securitySchemes", .obj
      [("basicAuth", .obj [("type", .str "http"), ("scheme", .str "basic")]),
       ("bearerAuth", .obj [("type", .str "http"), ("scheme", .str "BEARER")])])])]

/-- A property schema whose `example` key is present with a `null` value and
which carries a description (concrete input for claim C10's witness). -/
def nullExampleFieldSchema : List (String × Json) :=
  [("description", .str "an id"), ("example", .null)]

/-- The response-entry ordering of the amended claim C4: numeric codes before
non-numeric ones; two numeric codes ordered by their zero-padded decimal
strings, which is ascending numeric order within 0–9999; two non-numeric
codes in ascending lexicographic order. -/
def response_order_amended (a b : String) : Prop :=
  match pyIntOfString a, pyIntOfString b with
  | some _, none => True
  | none, some _ => False
  | some m, some n =>
    pyLe (pad4 m) (pad4 n) = true ∧ (0 ≤ m → m < 10000 → 0 ≤ n → n < 10000 → m ≤ n)
  | none, none => pyLe a b = true

/-- The field ordering claim C6 states: required rows strictly before optional
ones, and alphabetical (code-point) order of names inside each group. -/
def field_order_spec (f g : FieldRow) : Prop :=
  (f.required = "yes" ∧ g.required ≠ "yes")
    ∨ ((f.required = "yes" ↔ g.required = "yes") ∧ pyLe f.name g.name = true)

/-- Membership rule of claim C7: `t` is a collected operation exactly when
some mapping path item holds a key that case-insensitively matches a
recognized HTTP method and whose value is a mapping. -/
def operation_spec_mem (spec : List (String × Json)) (t : Operation) : Prop :=
  ∃ p item, (p, Json.obj item) ∈ pathsEntries spec ∧
    ∃ k v, (k, v) ∈ item ∧ pyLower k ∈ httpMethods ∧
      ∃ kvs, v = Json.obj kvs ∧ t = (pyUpper (pyLower k), p, kvs)

theorem charsLt_irrefl : ∀ l : List Char, charsLt l l = false
  | [] => rfl
  | a :: as => by
    simp only [charsLt, lt_irrefl a, if_false]
    exact charsLt_irrefl as

theorem charsLt_trans : ∀ {a b c : List Char},
    charsLt a b = true → charsLt b c = true → charsLt a c = true
  | _, [], _, hab, _ => by simp [charsLt] at hab
  | _, _ :: _, [], _, hbc => by simp [charsLt] at hbc
  | [], _ :: _, _ :: _, _, _ => by simp [charsLt]
  | a :: as, b :: bs, c :: cs, hab, hbc => by
    simp only [charsLt] at hab hbc ⊢
    rcases lt_trichotomy a b with h1 | h1 | h1
    · rcases lt_trichotomy b c with h2 | h2 | h2
      · simp [lt_trans h1 h2]
      · subst h2; simp [h1]
      · simp [h2, lt_asymm h2] at hbc
    · subst h1
      rcases lt_trichotomy a c with h2 | h2 | h2
      · simp [h2]
      · subst h2
        simp [lt_irrefl] at hab hbc ⊢
        exact charsLt_trans hab hbc
      · simp [h2, lt_asymm h2] at hbc
    · simp [h1, lt_asymm h1] at hab

theorem charsLt_connex : ∀ {a b : List Char},
    charsLt a b = false → charsLt b a = false → a = b
  | [], [], _, _ => rfl
  | [], _ :: _, hab, _ => by simp [charsLt] at hab
  | _ :: _, [], _, hba => by simp [charsLt] at hba
  | a :: as, b :: bs, hab, hba => by
    simp only [charsLt] at hab hba
    rcases lt_trichotomy a b with h1 | h1 | h1
    · simp [h1] at hab
    · subst h1
      simp only [lt_irrefl, if_false] at hab hba
      rw [charsLt_connex hab hba]
    · simp [h1] at hba

theorem charsLe_eq_not_lt : ∀ a b : List Char, charsLe a b = !charsLt b a
  | [], [] => rfl
  | [], _ :: _ => rfl
  | _ :: _, [] => rfl
  | a :: as, b :: bs => by
    simp only [charsLe, charsLt]
    rcases lt_trichotomy a b with h1 | h1 | h1
    · simp [h1, lt_asymm h1]
    · subst h1
      simp [lt_irrefl, charsLe_eq_not_lt as bs]
    · simp [h1, lt_asymm h1]

theorem charsLe_refl (a : List Char) : charsLe a a = true := by
  simp [charsLe_eq_not_lt, charsLt_irrefl]

theorem charsLe_total (a b : List Char) : charsLe a b = true ∨ charsLe b a = true := by
  simp only [charsLe_eq_not_lt, Bool.not_eq_true']
  by_cases h : charsLt b a = true
  · right
    by_cases h2 : charsLt a b = true
    · exact absurd (charsLt_trans h h2) (by simp [charsLt_irrefl])
    · simpa using h2
  · left; simpa using h

theorem charsLt_asymm {a b : List Char} (h : charsLt a b = true) : charsLt b a = false := by
  rcases Bool.eq_false_or_eq_true (charsLt b a) with ht | hf
  · exact absurd (charsLt_trans h ht) (by simp [charsLt_irrefl])
  · exact hf

theorem charsLe_iff {a b : List Char} :
    charsLe a b = true ↔ (charsLt a b = true ∨ a = b) := by
  rw [charsLe_eq_not_lt, Bool.not_eq_true']
  constructor
  · intro h
    rcases Bool.eq_false_or_eq_true (charsLt a b) with ht | hf
    · exact Or.inl ht
    · exact Or.inr (charsLt_connex hf h)
  · rintro (h | rfl)
    · exact charsLt_asymm h
    · exact charsLt_irrefl a

theorem charsLe_trans {a b c : List Char}
    (hab : charsLe a b = true) (hbc : charsLe b c = true) : charsLe a c = true := by
  rw [charsLe_iff] at hab hbc ⊢
  rcases hab with h1 | rfl
  · rcases hbc with h2 | rfl
    · exact Or.inl (charsLt_trans h1 h2)
    · exact Or.inl h1
  · exact hbc

theorem charsLt_of_lt_of_le {a b c : List Char}
    (hab : charsLt a b = true) (hbc : charsLe b c = true) : charsLt a c = true := by
  rw [charsLe_iff] at hbc
  rcases hbc with h2 | rfl
  · exact charsLt_trans hab h2
  · exact hab

theorem charsLt_of_le_of_lt {a b c : List Char}
    (hab : charsLe a b = true) (hbc : charsLt b c = true) : charsLt a c = true := by
  rw [charsLe_iff] at hab
  rcases hab with h1 | rfl
  · exact charsLt_trans h1 hbc
  · exact hbc

theorem pyLe_refl (s : String) : pyLe s s = true := charsLe_refl s.data

theorem pyLe_total (s t : String) : pyLe s t = true ∨ pyLe t s = true :=
  charsLe_total s.data t.data

theorem pyLe_trans {s t u : String} (h1 : pyLe s t = true) (h2 : pyLe t u = true) :
    pyLe s u = true := charsLe_trans h1 h2

theorem string_eq_of_not_lt {s t : String} (h1 : pyLt s t = false) (h2 : pyLt t s = false) :
    s = t := by
  cases s; cases t
  exact congrArg String.mk (charsLt_connex h1 h2)

theorem pyLt_trichot (s t : String) : pyLt s t = true ∨ s = t ∨ pyLt t s = true := by
  rcases Bool.eq_false_or_eq_true (pyLt s t) with h1 | h1
  · exact Or.inl h1
  · rcases Bool.eq_false_or_eq_true (pyLt t s) with h2 | h2
    · exact Or.inr (Or.inr h2)
    · exact Or.inr (Or.inl (string_eq_of_not_lt h1 h2))

theorem pyLt_of_lt_of_le {s t u : String} (h1 : pyLt s t = true) (h2 : pyLe t u = true) :
    pyLt s u = true := charsLt_of_lt_of_le h1 h2

theorem pyLt_of_le_of_lt {s t u : String} (h1 : pyLe s t = true) (h2 : pyLt t u = true) :
    pyLt s u = true := charsLt_of_le_of_lt h1 h2

theorem pyLe_of_lt {s t : String} (h : pyLt s t = true) : pyLe s t = true :=
  charsLe_iff.mpr (Or.inl h)

instance : IsTotal Operation opKeyLe := by
  constructor
  intro a b
  unfold opKeyLe
  simp only [Bool.or_eq_true, Bool.and_eq_true, beq_iff_eq]
  rcases pyLt_trichot a.2.1 b.2.1 with h | h | h
  · exact Or.inl (Or.inl h)
  · rcases pyLe_total a.1 b.1 with h2 | h2
    · exact Or.inl (Or.inr ⟨h, h2⟩)
    · exact Or.inr (Or.inr ⟨h.symm, h2⟩)
  · exact Or.inr (Or.inl h)

instance : IsTrans Operation opKeyLe := by
  constructor
  intro a b c hab hbc
  unfold opKeyLe at hab hbc ⊢
  simp only [Bool.or_eq_true, Bool.and_eq_true, beq_iff_eq] at hab hbc ⊢
  rcases hab with h1 | ⟨h1e, h1m⟩
  · rcases hbc with h2 | ⟨h2e, h2m⟩
    · exact Or.inl (charsLt_trans h1 h2)
    · rw [h2e] at h1; exact Or.inl h1
  · rcases hbc with h2 | ⟨h2e, h2m⟩
    · rw [h1e]; exact Or.inl h2
    · exact Or.inr ⟨h1e.trans h2e, pyLe_trans h1m h2m⟩

instance : IsTotal FieldRow fieldKeyLe := by
  constructor
  intro a b
  unfold fieldKeyLe
  simp only [Bool.or_eq_true, Bool.and_eq_true, beq_iff_eq, Bool.not_eq_true']
  rcases Bool.eq_false_or_eq_true (decide (a.required ≠ "yes")) with ha | ha <;>
    rcases Bool.eq_false_or_eq_true (decide (b.required ≠ "yes")) with hb | hb <;>
      rcases pyLe_total a.name b.name with hm | hm <;>
        simp [ha, hb, hm]

instance : IsTrans FieldRow fieldKeyLe := by
  constructor
  intro a b c hab hbc
  unfold fieldKeyLe at hab hbc ⊢
  simp only [Bool.or_eq_true, Bool.and_eq_true, beq_iff_eq, Bool.not_eq_true'] at hab hbc ⊢
  rcases hab with ⟨h1a, h1b⟩ | ⟨h1e, h1m⟩
  · rcases hbc with ⟨h2a, h2b⟩ | ⟨h2e, h2m⟩
    · rw [h2a] at h1b; cases h1b
    · exact Or.inl ⟨h1a, h2e ▸ h1b⟩
  · rcases hbc with ⟨h2a, h2b⟩ | ⟨h2e, h2m⟩
    · exact Or.inl ⟨h1e.trans h2a, h2b⟩
    · exact Or.inr ⟨h1e.trans h2e, pyLe_trans h1m h2m⟩

instance : IsTotal String respKeyLe := by
  constructor
  intro a b
  unfold respKeyLe
  simp only [Bool.or_eq_true, Bool.and_eq_true, beq_iff_eq, decide_eq_true_eq]
  rcases Nat.lt_trichotomy (response_sort_key a).1 (response_sort_key b).1 with h | h | h
  · exact Or.inl (Or.inl h)
  · rcases pyLe_total (response_sort_key a).2 (response_sort_key b).2 with h2 | h2
    · exact Or.inl (Or.inr ⟨h, h2⟩)
    · exact Or.inr (Or.inr ⟨h.symm, h2⟩)
  · exact Or.inr (Or.inl h)

instance : IsTrans String respKeyLe := by
  constructor
  intro a b c hab hbc
  unfold respKeyLe at hab hbc ⊢
  simp only [Bool.or_eq_true, Bool.and_eq_true, beq_iff_eq, decide_eq_true_eq] at hab hbc ⊢
  rcases hab with h1 | ⟨h1e, h1m⟩
  · rcases hbc with h2 | ⟨h2e, h2m⟩
    · exact Or.inl (h1.trans h2)
    · rw [h2e] at h1; exact Or.inl h1
  · rcases hbc with h2 | ⟨h2e, h2m⟩
    · rw [h1e]; exact Or.inl h2
    · exact Or.inr ⟨h1e.trans h2e, pyLe_trans h1m h2m⟩

theorem str_data_append (s t : String) : (s ++ t).data = s.data ++ t.data := rfl

theorem prefAt_append_self : ∀ p t : List Char, prefAt p (p ++ t) = true
  | [], _ => rfl
  | c :: cs, t => by simp [prefAt, prefAt_append_self cs t]

theorem subSearch_of_prefAt {pat l : List Char} (h : prefAt pat l = true) :
    subSearch pat l = true := by
  cases l with
  | nil => exact h
  | cons c cs => simp [subSearch, h]

theorem subSearch_of_decomp : ∀ (a : List Char) {pat b : List Char},
    subSearch pat (a ++ pat ++ b) = true
  | [], pat, b => by
    apply subSearch_of_prefAt
    simpa using prefAt_append_self pat b
  | c :: a', pat, b => by
    simp only [List.cons_append, subSearch, Bool.or_eq_true]
    exact Or.inr (subSearch_of_decomp a')

theorem strContains_of_decomp {s pat : String} {a b : List Char}
    (h : s.data = a ++ pat.data ++ b) : strContains s pat = true := by
  unfold strContains
  rw [h]
  exact subSearch_of_decomp a

theorem dropWhile_keep (a : List Char) {p0 : Char} (ps b : List Char)
    (h0 : isPySpace p0 = false) :
    ∃ a₁, (a ++ (p0 :: ps) ++ b).dropWhile isPySpace = a₁ ++ (p0 :: ps) ++ b := by
  have hmid : ((p0 :: ps) ++ b).dropWhile isPySpace = (p0 :: ps) ++ b := by
    simp [List.dropWhile_cons, h0]
  rw [List.append_assoc, List.dropWhile_append]
  by_cases he : (a.dropWhile isPySpace).isEmpty
  · rw [if_pos he, hmid]
    exact ⟨[], by simp⟩
  · rw [if_neg he]
    exact ⟨a.dropWhile isPySpace, by simp⟩

theorem strip_keeps {pat : String} (p0 : Char) (ps : List Char) (q : List Char) (c : Char)
    (hhead : pat.data = p0 :: ps) (hlast : pat.data = q ++ [c])
    (h0 : isPySpace p0 = false) (hc : isPySpace c = false) :
    ∀ {s : String} {a b : List Char}, s.data = a ++ pat.data ++ b →
      ∃ a' b', (pyStrip s).data = a' ++ pat.data ++ b' := by
  intro s a b hs
  unfold pyStrip stripChars
  rw [hs, hhead]
  obtain ⟨a₁, ha₁⟩ := dropWhile_keep a ps b h0
  rw [ha₁]
  have hrev : (a₁ ++ (p0 :: ps) ++ b).reverse = b.reverse ++ (c :: q.reverse) ++ a₁.reverse := by
    have hpr : (p0 :: ps).reverse = c :: q.reverse := by
      rw [← hhead, hlast]
      simp
    rw [List.reverse_append, List.reverse_append, hpr, List.append_assoc]
  rw [hrev]
  obtain ⟨b₁, hb₁⟩ := dropWhile_keep b.reverse q.reverse a₁.reverse hc
  rw [hb₁]
  refine ⟨a₁, b₁.reverse, ?_⟩
  have hq : (c :: q.reverse).reverse = q ++ [c] := by simp
  rw [show (b₁ ++ (c :: q.reverse) ++ a₁.reverse : List Char).reverse
        = a₁ ++ ((c :: q.reverse).reverse ++ b₁.reverse) by simp,
      hq, ← hlast, hhead]
  simp

theorem strip_concat_contains {pat : String} (p0 : Char) (ps : List Char) (q : List Char) (c : Char)
    (hhead : pat.data = p0 :: ps) (hlast : pat.data = q ++ [c])
    (h0 : isPySpace p0 = false) (hc : isPySpace c = false)
    {s : String} {a b : List Char} (hs : s.data = a ++ pat.data ++ b) :
    strContains (pyStrip s ++ "\n") pat = true := by
  obtain ⟨a', b', hab⟩ := strip_keeps p0 ps q c hhead hlast h0 hc hs
  apply strContains_of_decomp (a := a') (b := b' ++ ['\n'])
  rw [str_data_append, hab]
  simp

theorem rstrip_newline {x : String} {q : List Char} {c : Char}
    (hx : x.data = q ++ [c]) (hc : isPySpace c = false) : pyRstrip (x ++ "\n") = x := by
  unfold pyRstrip
  rw [str_data_append, hx]
  have : (q ++ [c] ++ "\n".data).reverse = '\n' :: (c :: q.reverse) := by simp
  rw [this]
  rw [List.dropWhile_cons, if_pos (by simp [isPySpace]), List.dropWhile_cons, if_neg (by simp [hc])]
  cases x
  simp_all

theorem joinNL_mem_decomp {x : String} : ∀ {l : List String}, x ∈ l →
    ∃ a b, (joinNL l).data = a ++ x.data ++ b
  | [], h => absurd h (List.not_mem_nil x)
  | y :: rest, h => by
    rcases List.mem_cons.mp h with rfl | hrest
    · cases rest with
      | nil => exact ⟨[], [], by simp [joinNL]⟩
      | cons z zs =>
        refine ⟨[], '\n' :: (joinNL (z :: zs)).data, ?_⟩
        show (x ++ "\n" ++ joinNL (z :: zs)).data = _
        simp [str_data_append]
    · obtain ⟨a, b, hab⟩ := joinNL_mem_decomp hrest
      cases rest with
      | nil => cases hrest
      | cons z zs =>
        refine ⟨y.data ++ '\n' :: a, b, ?_⟩
        show (y ++ "\n" ++ joinNL (z :: zs)).data = _
        rw [str_data_append, str_data_append, hab]
        simp

theorem natDigitsAux_of_lt10 (f : Nat) {m : Nat} (h : m < 10) :
    natDigitsAux (f + 1) m = [digitChar m] := by
  rw [natDigitsAux, if_pos h]

theorem natDigits_of_lt10 {m : Nat} (h : m < 10) : natDigits m = [digitChar m] :=
  natDigitsAux_of_lt10 m h

theorem natDigits_of_lt100 {m : Nat} (h1 : 10 ≤ m) (h2 : m < 100) :
    natDigits m = [digitChar (m / 10), digitChar (m % 10)] := by
  unfold natDigits
  rw [natDigitsAux, if_neg (by omega)]
  obtain ⟨f, rfl⟩ : ∃ f, m = f + 1 := ⟨m - 1, by omega⟩
  rw [natDigitsAux_of_lt10 f (by omega)]
  rfl

theorem natDigits_of_lt1000 {m : Nat} (h1 : 100 ≤ m) (h2 : m < 1000) :
    natDigits m = [digitChar (m / 100), digitChar (m / 10 % 10), digitChar (m % 10)] := by
  unfold natDigits
  rw [natDigitsAux, if_neg (by omega)]
  obtain ⟨f, hf⟩ : ∃ f, m = f + 1 := ⟨m - 1, by omega⟩
  rw [hf]
  rw [natDigitsAux, if_neg (by omega : ¬ (f + 1) / 10 < 10)]
  obtain ⟨g, hg⟩ : ∃ g, f = g + 1 := ⟨f - 1, by omega⟩
  rw [hg]
  rw [natDigitsAux_of_lt10 g (by omega : (g + 1 + 1) / 10 / 10 < 10)]
  rw [← hg, ← hf]
  have e1 : m / 10 / 10 = m / 100 := by omega
  rw [e1]
  rfl

theorem natDigits_of_lt10000 {m : Nat} (h1 : 1000 ≤ m) (h2 : m < 10000) :
    natDigits m =
      [digitChar (m / 1000), digitChar (m / 100 % 10), digitChar (m / 10 % 10), digitChar (m % 10)] := by
  unfold natDigits
  rw [natDigitsAux, if_neg (by omega)]
  obtain ⟨f, hf⟩ : ∃ f, m = f + 1 := ⟨m - 1, by omega⟩
  rw [hf]
  rw [natDigitsAux, if_neg (by omega : ¬ (f + 1) / 10 < 10)]
  obtain ⟨g, hg⟩ : ∃ g, f = g + 1 := ⟨f - 1, by omega⟩
  rw [hg]
  rw [natDigitsAux, if_neg (by omega : ¬ (g + 1 + 1) / 10 / 10 < 10)]
  obtain ⟨i, hi⟩ : ∃ i, g = i + 1 := ⟨g - 1, by omega⟩
  rw [hi]
  rw [natDigitsAux_of_lt10 i (by omega : (i + 1 + 1 + 1) / 10 / 10 / 10 < 10)]
  rw [← hi, ← hg, ← hf]
  have e1 : m / 10 / 10 / 10 = m / 1000 := by omega
  have e2 : m / 10 / 10 % 10 = m / 100 % 10 := by omega
  rw [e1, e2]
  rfl

theorem pad4_data_of_lt {m : Nat} (h : m < 10000) :
    (pad4 (m : Int)).data =
      [digitChar (m / 1000), digitChar (m / 100 % 10), digitChar (m / 10 % 10), digitChar (m % 10)] := by
  unfold pad4
  rw [if_neg (by omega : ¬ (m : Int) < 0)]
  have htn : ((m : Int)).toNat = m := Int.toNat_ofNat m
  rw [htn]
  rcases Nat.lt_or_ge m 10 with h1 | h1
  · rw [natDigits_of_lt10 h1]
    have e1 : m / 1000 = 0 := by omega
    have e2 : m / 100 % 10 = 0 := by omega
    have e3 : m / 10 % 10 = 0 := by omega
    have e4 : m % 10 = m := by omega
    simp only [e1, e2, e3, e4, List.length_cons, List.length_nil]
    have hrep : List.replicate (4 - (0 + 1)) '0' = [digitChar 0, digitChar 0, digitChar 0] := by
      decide
    rw [hrep]
    rfl
  · rcases Nat.lt_or_ge m 100 with h2 | h2
    · rw [natDigits_of_lt100 h1 h2]
      have e1 : m / 1000 = 0 := by omega
      have e2 : m / 100 % 10 = 0 := by omega
      have e3 : m / 10 % 10 = m / 10 := by omega
      simp only [e1, e2, e3, List.length_cons, List.length_nil]
      have hrep : List.replicate (4 - (0 + 1 + 1)) '0' = [digitChar 0, digitChar 0] := by
        decide
      rw [hrep]
      rfl
    · rcases Nat.lt_or_ge m 1000 with h3 | h3
      · rw [natDigits_of_lt1000 h2 h3]
        have e1 : m / 1000 = 0 := by omega
        have e2 : m / 100 % 10 = m / 100 := by omega
        simp only [e1, e2, List.length_cons, List.length_nil]
        have hrep : List.replicate (4 - (0 + 1 + 1 + 1)) '0' = [digitChar 0] := by
          decide
        rw [hrep]
        rfl
      · rw [natDigits_of_lt10000 h3 h]
        simp only [List.length_cons, List.length_nil]
        have hrep : (4 - (0 + 1 + 1 + 1 + 1)) = 0 := by decide
        rw [hrep]
        rfl

theorem digitChar_lt_iff {a b : Nat} (ha : a < 10) (hb : b < 10) :
    digitChar a < digitChar b ↔ a < b := by
  interval_cases a <;> interval_cases b <;> simp <;> decide

theorem charsLe_cons_digit {a b : Nat} {as bs : List Char} (ha : a < 10) (hb : b < 10) :
    charsLe (digitChar a :: as) (digitChar b :: bs)
      = if a < b then true else if b < a then false else charsLe as bs := by
  simp only [charsLe]
  rcases Nat.lt_trichotomy a b with h | h | h
  · rw [if_pos ((digitChar_lt_iff ha hb).mpr h), if_pos h]
  · subst h
    rw [if_neg (lt_irrefl _), if_neg (lt_irrefl _), if_neg (lt_irrefl _), if_neg (lt_irrefl _)]
  · rw [if_neg (by rw [digitChar_lt_iff ha hb]; omega),
        if_pos ((digitChar_lt_iff hb ha).mpr h),
        if_neg (by omega), if_pos h]

theorem pad4_le_imp {m n : Nat} (hm : m < 10000) (hn : n < 10000)
    (h : pyLe (pad4 (m : Int)) (pad4 (n : Int)) = true) : m ≤ n := by
  unfold pyLe at h
  rw [pad4_data_of_lt hm, pad4_data_of_lt hn] at h
  rw [charsLe_cons_digit (by omega) (by omega), charsLe_cons_digit (by omega) (by omega),
      charsLe_cons_digit (by omega) (by omega), charsLe_cons_digit (by omega) (by omega)] at h
  split_ifs at h
  all_goals omega

/-- C2 counterexample: at the concrete property `a: {oneOf: [...]}` (no own
`type`), the derived type is `"object"`, not the `"oneOf"` the claim requires:
`extract_request_fields` derives the type as `str(field_schema.get("type") or
"object")`, with no `oneOf`/`anyOf`/`allOf` fallback. -/
theorem C2_counterexample :
    (extract_request_fields oneOfPropOp).1.map FieldRow.type = ["object"]
      ∧ ("object" : String) ≠ "oneOf" := by
  constructor
  · rfl
  · decide

/-- C2 (amended): for every request-body object-schema property whose own
`type` field is absent, the derived field type is `"object"` regardless of any
`oneOf`/`anyOf`/`allOf` keys. -/
theorem C2_amended (required : List Json) (name : String) (fs : List (String × Json))
    (h : alookup fs "type" = none) :
    (mkField required name (.obj fs)).type = "object" := by
  simp [mkField, field_type, jget, h, pyOr, Json.truthy, pyStr]

/-- Witness for `C2_amended` at a concrete property schema. -/
theorem C2_amended_witness :
    (mkField [] "a" (.obj [("oneOf", Json.arr [])])).type = "object" :=
  C2_amended [] "a" [("oneOf", Json.arr [])] rfl

/-- C3 counterexample: at the concrete operation whose request-body schema has
`properties` but omits `type`, the extractor returns the
"JSON body present, schema not expandable" state `([], true)` instead of
expanding the properties as the claim requires (the source demands
`schema.get("type") == "object"` literally). -/
theorem C3_counterexample :
    extract_request_fields untypedSchemaOp = ([], true) := by
  rfl

/-- C3 (amended): whenever the request-body JSON schema is a mapping whose
`type` key is absent — even with a `properties` mapping present — the
extractor yields the "JSON body present, schema not expandable" state
`([], true)`; only an explicit `type: object` is expanded. -/
theorem C3_amended (op rb content aj schema : List (String × Json))
    (h1 : jget op "requestBody" = .obj rb)
    (h2 : jget rb "content" = .obj content)
    (h3 : jget content "application/json" = .obj aj)
    (h4 : jget aj "schema" = .obj schema)
    (h5 : alookup schema "type" = none) :
    extract_request_fields op = ([], true) := by
  have ht : jget schema "type" = .null := by
    unfold jget
    rw [h5]
    rfl
  simp [extract_request_fields, h1, h2, h3, h4, ht, Json.eqStr]

/-- Witness for `C3_amended` at a concrete operation. -/
theorem C3_amended_witness :
    extract_request_fields
      [("requestBody", .obj [("content", .obj [("application/json", .obj
        [("schema", .obj [("properties", .obj [])])])])])] = ([], true) :=
  C3_amended _ _ _ _ [("properties", .obj [])] rfl rfl rfl rfl rfl

/-- C5: example extraction prefers the inline `example` key whenever it is
present (whatever its value), falls back to the first entry of `examples`
only otherwise (and only when that entry has a `value` field), and on the
concrete content object with both `example: 1` and `examples: {x: {value: 2}}`
renders `1`, never `2`. -/
theorem C5_example_precedence :
    (∀ ct aj v, alookup ct "application/json" = some (.obj aj) →
        alookup aj "example" = some v →
        extract_json_example (.obj ct) = v)
    ∧ (∀ ct aj k e rest w, alookup ct "application/json" = some (.obj aj) →
        alookup aj "example" = none →
        jget aj "examples" = .obj ((k, .obj e) :: rest) →
        alookup e "value" = some w →
        extract_json_example (.obj ct) = w)
    ∧ extract_json_example bothExamplesContent = .num 1 := by
  refine ⟨?_, ?_, rfl⟩
  · intro ct aj v h1 h2
    have hh : jhas aj "example" = true := by simp [jhas, h2]
    simp [extract_json_example, h1, hh, jget, h2]
  · intro ct aj k e rest w h1 h2 h3 h4
    have hh : jhas aj "example" = false := by simp [jhas, h2]
    have hv : jhas e "value" = true := by simp [jhas, h4]
    have h3' : (alookup aj "examples").getD Json.null = Json.obj ((k, Json.obj e) :: rest) := by
      simpa [jget] using h3
    simp [extract_json_example, h1, hh, h3', hv, jget, h4]

/-- Witness for `C5_example_precedence` at concrete content objects. -/
theorem C5_witness :
    extract_json_example (.obj [("application/json", .obj [("example", .str "E")])]) = .str "E"
    ∧ extract_json_example (.obj [("application/json", .obj
        [("examples", .obj [("x", .obj [("value", .num 7)])])])]) = .num 7 :=
  ⟨C5_example_precedence.1 _ _ _ rfl rfl,
   C5_example_precedence.2.1 _ _ "x" _ [] _ rfl rfl rfl rfl⟩

/-- C10: a request-body property whose `example` key is present with value
`null` produces notes without any appended example segment — exactly the
description-derived notes; an example segment is appended exactly when the
value is non-null (`example is not None`), unlike the presence-keyed
content-level extractor. -/
theorem C10_null_field_example :
    (∀ req name fs, alookup fs "example" = some Json.null →
        (mkField req name (.obj fs)).notes = field_desc_notes fs)
    ∧ (∀ req name fs v, alookup fs "example" = some v → v ≠ Json.null →
        (mkField req name (.obj fs)).notes =
          (if !(field_desc_notes fs).isEmpty then field_desc_notes fs ++ " " else "")
            ++ "Example: `" ++ pyStr v ++ "`") := by
  constructor
  · intro req name fs h
    simp [mkField, field_notes, jget, h, Json.isNull]
  · intro req name fs v h hv
    have hnull : v.isNull = false := by
      cases v <;> simp_all [Json.isNull]
    simp [mkField, field_notes, jget, h, hnull]

/-- Witness for `C10_null_field_example` at a concrete property schema. -/
theorem C10_witness :
    (mkField [] "id" (.obj nullExampleFieldSchema)).notes
        = field_desc_notes nullExampleFieldSchema
    ∧ (mkField [] "id" (.obj [("example", .num 3)])).notes = "Example: `3`" := by
  refine ⟨C10_null_field_example.1 [] "id" nullExampleFieldSchema rfl, ?_⟩
  rw [C10_null_field_example.2 [] "id" [("example", .num 3)] (.num 3) rfl (by simp)]
  decide

/-- C8: bearer auth is detected exactly when some entry of
`components.securitySchemes` is a mapping with `type` exactly `"http"` and
`scheme` case-insensitively `"bearer"` (an absent or malformed structure gives
`false`); and the rendered `Authorization` header line appears in a
"Required headers" block exactly when that single document-wide boolean is
true, independently of the per-operation JSON-body flag — so it is the same
line in every operation section of one document. -/
theorem C8_bearer_auth :
    (∀ spec, detect_bearer_auth spec = true ↔
        ∃ kv ∈ securitySchemeEntries spec, isBearerScheme kv.2 = true)
    ∧ (∀ has_bearer has_json_body,
        strContains (render_required_headers has_bearer has_json_body)
          "- `Authorization: Bearer <token>`" = has_bearer) := by
  constructor
  · intro spec
    simp [detect_bearer_auth, List.any_eq_true]
  · intro hb hj
    cases hb <;> cases hj <;> decide

/-- Witness for `C8_bearer_auth` at a concrete document. -/
theorem C8_witness :
    (∃ kv ∈ securitySchemeEntries bearerSpec, isBearerScheme kv.2 = true)
    ∧ strContains (render_required_headers (detect_bearer_auth bearerSpec) false)
        "- `Authorization: Bearer <token>`" = true := by
  constructor
  · exact (C8_bearer_auth.1 bearerSpec).mp (by rfl)
  · rw [show detect_bearer_auth bearerSpec = true from by rfl]
    exact C8_bearer_auth.2 true false

/-- The implementation's field sort key order implies the claimed ordering:
required rows before optional ones, names in ascending code-point order inside
a group. -/
theorem fieldKeyLe_imp_spec {f g : FieldRow} (h : fieldKeyLe f g) : field_order_spec f g := by
  unfold fieldKeyLe at h
  unfold field_order_spec
  simp only [Bool.or_eq_true, Bool.and_eq_true, Bool.not_eq_true', beq_iff_eq] at h
  rcases h with ⟨h1, h2⟩ | ⟨h1, h2⟩
  · simp only [decide_eq_false_iff_not, Decidable.not_not] at h1
    simp only [decide_eq_true_eq] at h2
    exact Or.inl ⟨h1, h2⟩
  · have : (f.required ≠ "yes") ↔ (g.required ≠ "yes") := by
      rw [← decide_eq_decide]
      exact h1
    exact Or.inr ⟨not_iff_not.mp this, h2⟩

/-- C6: the extracted field list is a permutation of the built rows, ordered
with required fields before optional ones and alphabetically by name inside
each group; on the concrete operation with required `{b, a}` and optional
`{c}` the output order is `a, b, c`. -/
theorem C6_field_ordering :
    (∀ rows : List FieldRow,
        List.Pairwise field_order_spec (List.insertionSort fieldKeyLe rows)
        ∧ (List.insertionSort fieldKeyLe rows).Perm rows)
    ∧ (extract_request_fields abcFieldsOp).1.map (fun f => (f.name, f.required))
        = [("a", "yes"), ("b", "yes"), ("c", "no")] := by
  refine ⟨fun rows => ⟨?_, List.perm_insertionSort fieldKeyLe rows⟩, by rfl⟩
  exact (List.sorted_insertionSort fieldKeyLe rows).imp fieldKeyLe_imp_spec

theorem mem_method_ops {t : Operation} {m p : String} {v : Json} :
    t ∈ method_ops m p v ↔ ∃ kvs, v = Json.obj kvs ∧ t = (pyUpper m, p, kvs) := by
  cases v <;> simp [method_ops]

theorem mem_collect_from_item {t : Operation} {p : String} :
    ∀ {l : List (String × Json)},
    t ∈ collect_from_item p l ↔
      ∃ k v, (k, v) ∈ l ∧ pyLower k ∈ httpMethods ∧
        ∃ kvs, v = Json.obj kvs ∧ t = (pyUpper (pyLower k), p, kvs)
  | [] => by simp [collect_from_item]
  | (k0, v0) :: rest => by
    rw [collect_from_item]
    by_cases hm : pyLower k0 ∈ httpMethods
    · rw [if_pos hm, List.mem_append, mem_method_ops, mem_collect_from_item (l := rest)]
      constructor
      · rintro (⟨kvs, rfl, rfl⟩ | ⟨k, v, hmem, hk, kvs, rfl, rfl⟩)
        · exact ⟨k0, Json.obj kvs, List.mem_cons_self _ _, hm, kvs, rfl, rfl⟩
        · exact ⟨k, Json.obj kvs, List.mem_cons_of_mem _ hmem, hk, kvs, rfl, rfl⟩
      · rintro ⟨k, v, hmem, hk, kvs, rfl, rfl⟩
        rcases List.mem_cons.mp hmem with heq | hmem'
        · rw [Prod.mk.injEq] at heq
          obtain ⟨rfl, heq2⟩ := heq
          exact Or.inl ⟨kvs, heq2.symm, rfl⟩
        · exact Or.inr ⟨k, Json.obj kvs, hmem', hk, kvs, rfl, rfl⟩
    · rw [if_neg hm, mem_collect_from_item (l := rest)]
      constructor
      · rintro ⟨k, v, hmem, hk, kvs, rfl, rfl⟩
        exact ⟨k, Json.obj kvs, List.mem_cons_of_mem _ hmem, hk, kvs, rfl, rfl⟩
      · rintro ⟨k, v, hmem, hk, kvs, rfl, rfl⟩
        rcases List.mem_cons.mp hmem with heq | hmem'
        · rw [Prod.mk.injEq] at heq
          obtain ⟨rfl, _⟩ := heq
          exact absurd hk hm
        · exact ⟨k, Json.obj kvs, hmem', hk, kvs, rfl, rfl⟩

theorem mem_path_item_ops {t : Operation} {p : String} {item : Json} :
    t ∈ path_item_ops p item ↔
      ∃ entries, item = Json.obj entries ∧ t ∈ collect_from_item p entries := by
  cases item <;> simp [path_item_ops]

theorem mem_collect_from_paths {t : Operation} :
    ∀ {l : List (String × Json)},
    t ∈ collect_from_paths l ↔
      ∃ p item, (p, Json.obj item) ∈ l ∧ t ∈ collect_from_item p item
  | [] => by simp [collect_from_paths]
  | (p0, item0) :: rest => by
    rw [collect_from_paths, List.mem_append, mem_path_item_ops,
        mem_collect_from_paths (l := rest)]
    constructor
    · rintro (⟨entries, rfl, ht⟩ | ⟨p, item, hmem, ht⟩)
      · exact ⟨p0, entries, List.mem_cons_self _ _, ht⟩
      · exact ⟨p, item, List.mem_cons_of_mem _ hmem, ht⟩
    · rintro ⟨p, item, hmem, ht⟩
      rcases List.mem_cons.mp hmem with heq | hmem'
      · rw [Prod.mk.injEq] at heq
        obtain ⟨rfl, heq2⟩ := heq
        exact Or.inl ⟨item, heq2.symm, ht⟩
      · exact Or.inr ⟨p, item, hmem', ht⟩

/-- C7: `collect_operations` yields, up to order, exactly the triples
`(upper-cased method, path, operation entries)` coming from a mapping path
item entry whose key case-insensitively matches one of the seven HTTP method
tokens and whose value is a mapping (everything else silently skipped), and
the output is sorted by the `(path, method)` key order (paths by code-point
order, then canonical uppercase methods by code-point order). -/
theorem C7_collect_operations (spec : List (String × Json)) :
    (collect_operations spec).Perm (collect_from_paths (pathsEntries spec))
    ∧ List.Pairwise opKeyLe (collect_operations spec)
    ∧ (∀ t, t ∈ collect_operations spec ↔ operation_spec_mem spec t) := by
  refine ⟨List.perm_insertionSort opKeyLe _, List.sorted_insertionSort opKeyLe _, fun t => ?_⟩
  unfold collect_operations
  rw [(List.perm_insertionSort opKeyLe _).mem_iff, mem_collect_from_paths]
  unfold operation_spec_mem
  constructor
  · rintro ⟨p, item, hmem, ht⟩
    exact ⟨p, item, hmem, mem_collect_from_item.mp ht⟩
  · rintro ⟨p, item, hmem, ht⟩
    exact ⟨p, item, hmem, mem_collect_from_item.mpr ht⟩

/-- Witness for `C7_collect_operations` at a concrete document. -/
theorem C7_witness :
    collect_operations twoPathsSpec
      = [("POST", "/a", []), ("GET", "/b", [("summary", Json.str "B")])]
    ∧ operation_spec_mem twoPathsSpec ("POST", "/a", []) := by
  constructor
  · rfl
  · refine ((C7_collect_operations twoPathsSpec).2.2 _).mp ?_
    rw [show collect_operations twoPathsSpec
        = [("POST", "/a", []), ("GET", "/b", [("summary", Json.str "B")])] from rfl]
    exact List.mem_cons_self _ _

/-- C4 counterexample: on the concrete `responses` map
`{default, 4XX, 10000, 9999}` the rendered order is
`10000, 9999, 4XX, default` — the claim demands ascending numeric order
(`9999` before `10000`) and encounter order among non-numeric codes
(`default` before `4XX`), i.e. `9999, 10000, default, 4XX`; both parts fail
(numeric codes are compared as zero-padded strings, and non-numeric codes are
sorted lexicographically, not left in encounter order). -/
theorem C4_counterexample :
    response_code_order mixedCodesResponses = ["10000", "9999", "4XX", "default"]
    ∧ ["10000", "9999", "4XX", "default"] ≠ ["9999", "10000", "default", "4XX"] := by
  constructor
  · rfl
  · decide

/-- The implementation's response sort key order implies the amended ordering
statement. -/
theorem respKeyLe_imp_amended {a b : String} (h : respKeyLe a b) :
    response_order_amended a b := by
  unfold respKeyLe at h
  unfold response_order_amended
  simp only [Bool.or_eq_true, Bool.and_eq_true, beq_iff_eq, decide_eq_true_eq] at h
  cases ha : pyIntOfString a with
  | none =>
    cases hb : pyIntOfString b with
    | none =>
      simp only [response_sort_key, ha, hb] at h
      rcases h with h | ⟨_, h⟩
      · exact absurd h (by omega)
      · exact h
    | some n =>
      simp only [response_sort_key, ha, hb] at h
      rcases h with h | ⟨h, _⟩
      · exact absurd h (by omega)
      · exact absurd h (by omega)
  | some m =>
    cases hb : pyIntOfString b with
    | none => trivial
    | some n =>
      simp only [response_sort_key, ha, hb] at h
      rcases h with h | ⟨_, h⟩
      · exact absurd h (by omega)
      · refine ⟨h, fun hm0 hm1 hn0 hn1 => ?_⟩
        have hm' : m = ((m.toNat : Nat) : Int) := by omega
        have hn' : n = ((n.toNat : Nat) : Int) := by omega
        rw [hm', hn'] at h
        have := pad4_le_imp (m := m.toNat) (n := n.toNat) (by omega) (by omega) h
        omega

/-- C4 (amended): the rendered response codes are a permutation of the keys of
the `responses` map, ordered with numeric codes first — compared through their
zero-padded four-character decimal strings, which is ascending numeric order
for codes in 0–9999 — followed by all non-numeric codes in ascending
lexicographic (code-point) order, not in encounter order. -/
theorem C4_amended (responses : List (String × Json)) :
    (response_code_order responses).Perm (responses.map Prod.fst)
    ∧ List.Pairwise response_order_amended (response_code_order responses) := by
  refine ⟨List.perm_insertionSort respKeyLe _, ?_⟩
  exact (List.sorted_insertionSort respKeyLe _).imp respKeyLe_imp_amended

theorem pathsEntries_nil {spec : List (String × Json)}
    (h : (jget spec "paths").isObj = false ∨ jget spec "paths" = .obj []) :
    pathsEntries spec = [] := by
  unfold pathsEntries pyOr
  rcases h with h | h
  · by_cases ht : (jget spec "paths").truthy = true
    · rw [if_pos ht]
      cases hj : jget spec "paths" <;> simp_all [Json.isObj]
    · rw [if_neg ht]
  · rw [h]
    simp [Json.truthy]

/-- C9: when `paths` is missing, empty, or not a mapping, no operations are
collected, the document is exactly the no-operations document (title, intro,
optional base URL, the fixed fallback in place of the summary table, the
authentication section, and nothing else — in particular no per-operation
sections, which are emitted only for collected operations), and the output
contains the fallback sentence. -/
theorem C9_no_operations (spec : List (String × Json))
    (h : (jget spec "paths").isObj = false ∨ jget spec "paths" = .obj []) :
    collect_operations spec = []
    ∧ build_markdown spec = no_ops_reference_doc spec
    ∧ strContains (build_markdown spec) "No operations found in `paths`." = true := by
  have hops : collect_operations spec = [] := by
    unfold collect_operations
    rw [pathsEntries_nil h]
    rfl
  have heq : build_markdown spec = no_ops_reference_doc spec := by
    unfold build_markdown no_ops_reference_doc
    rw [hops]
    simp
  refine ⟨hops, heq, ?_⟩
  rw [heq]
  unfold no_ops_reference_doc
  have hmem : ("No operations found in `paths`.\n" : String) ∈
      ([pyRstrip (md_h1 (pyStr (let t := spec_title spec;
          if !t.truthy then .str "API reference" else t) ++ " — reference")) ++ "\n",
        "This page is a human-readable reference generated from an OpenAPI spec.\n"]
        ++ (if (first_server_url spec).truthy then
              ["**Base URL:** `" ++ pyStr (first_server_url spec) ++ "`\n"] else [])
        ++ ["No operations found in `paths`.\n"]
        ++ [render_auth_section (detect_bearer_auth spec)]) := by
    simp
  obtain ⟨a, b, hab⟩ := joinNL_mem_decomp hmem
  refine strip_concat_contains
    'N' ("o operations found in `paths`.").data
    ("No operations found in `paths`").data '.'
    rfl rfl (by decide) (by decide) (a := a) (b := ['\n'] ++ b) ?_
  rw [hab]
  have : ("No operations found in `paths`.\n" : String).data
      = ("No operations found in `paths`." : String).data ++ ['\n'] := rfl
  rw [this]
  simp

theorem title_piece (t : String) :
    pyRstrip (md_h1 (t ++ " — reference")) ++ "\n" = ("# " ++ (t ++ " — reference")) ++ "\n" := by
  unfold md_h1
  congr 1
  refine rstrip_newline (q := '#' :: ' ' :: (t.data ++ (" — referenc").data)) (c := 'e') ?_ (by decide)
  show ("# " ++ (t ++ " — reference")).data = _
  rw [str_data_append, str_data_append]
  have h1 : (" — reference").data = (" — referenc").data ++ ['e'] := rfl
  have h2 : ("# ").data = ['#', ' '] := rfl
  rw [h1, h2]
  simp

theorem auth_section_shape (hb : Bool) :
    ∃ tl : List Char,
      (render_auth_section hb).data = '\n' :: (("## Authentication\n\nA").data ++ tl) := by
  cases hb
  · exact ⟨("uthentication is not defined in this sample OpenAPI spec.\n").data, rfl⟩
  · exact ⟨("ll requests require a bearer token:\n\n`Authorization: Bearer <token>`\n").data, rfl⟩

/-- C1: the Markdown builder is a total function of the document tree — every
irregularity is absorbed by the (translated) guards, which is why this
embedding needs no error cases — and for every mapping-rooted document it
returns one complete document: the output ends in a newline, carries the
title heading line (`… — reference`), and carries the authentication section
that every complete document contains. -/
theorem C1_never_raises_complete (spec : List (String × Json)) :
    (build_markdown spec).data.getLast? = some '\n'
    ∧ strContains (build_markdown spec) "— reference" = true
    ∧ strContains (build_markdown spec) "## Authentication\n\nA" = true := by
  unfold build_markdown
  dsimp only
  refine ⟨?_, ?_, ?_⟩
  · rw [str_data_append]
    exact List.getLast?_concat _
  · rw [title_piece]
    simp only [List.cons_append, List.nil_append]
    rw [show ∀ r0 rs (x : String), joinNL (x :: r0 :: rs) = x ++ "\n" ++ joinNL (r0 :: rs)
        from fun _ _ _ => rfl]
    refine strip_concat_contains
      '—' (" reference").data ("— referenc").data 'e'
      rfl rfl (by decide) (by decide)
      (a := '#' :: ' ' :: ((pyStr (if !(spec_title spec).truthy then Json.str "API reference"
        else spec_title spec)).data ++ [' ']))
      (b := '\n' :: '\n' :: (joinNL
        ("This page is a human-readable reference generated from an OpenAPI spec.\n"
          :: ((if (first_server_url spec).truthy then
                ["**Base URL:** `" ++ pyStr (first_server_url spec) ++ "`\n"] else [])
            ++ (if !(collect_operations spec).isEmpty
                then [render_endpoint_summary (collect_operations spec)]
                else ["No operations found in `paths`.\n"])
            ++ [render_auth_section (detect_bearer_auth spec)]
            ++ (if !(collect_operations spec).isEmpty
                then [render_endpoint_sections (collect_operations spec) (detect_bearer_auth spec)]
                else [])))).data) ?_
    simp only [str_data_append]
    have h1 : (" — reference").data = [' ', '—'] ++ (" reference").data := rfl
    have h2 : ("# ").data = ['#', ' '] := rfl
    have h3 : ("\n").data = ['\n'] := rfl
    simp [h1, h2, h3]
  · have hmem : render_auth_section (detect_bearer_auth spec) ∈
        ([pyRstrip (md_h1 (pyStr (let t := spec_title spec;
            if !t.truthy then .str "API reference" else t) ++ " — reference")) ++ "\n",
          "This page is a human-readable reference generated from an OpenAPI spec.\n"]
          ++ (if (first_server_url spec).truthy then
                ["**Base URL:** `" ++ pyStr (first_server_url spec) ++ "`\n"] else [])
          ++ (if !(collect_operations spec).isEmpty
              then [render_endpoint_summary (collect_operations spec)]
              else ["No operations found in `paths`.\n"])
          ++ [render_auth_section (detect_bearer_auth spec)]
          ++ (if !(collect_operations spec).isEmpty
              then [render_endpoint_sections (collect_operations spec) (detect_bearer_auth spec)]
              else [])) := by
      simp
    obtain ⟨a, b, hab⟩ := joinNL_mem_decomp hmem
    obtain ⟨tl, htl⟩ := auth_section_shape (detect_bearer_auth spec)
    refine strip_concat_contains
      '#' ("# Authentication\n\nA").data ("## Authentication\n\n").data 'A'
      rfl rfl (by decide) (by decide)
      (a := a ++ ['\n']) (b := tl ++ b) ?_
    rw [hab, htl]
    simp

/-- Witness for `C9_no_operations` at the empty document (no `paths` at all). -/
theorem C9_witness :
    collect_operations [] = []
    ∧ build_markdown [] = no_ops_reference_doc []
    ∧ strContains (build_markdown []) "No operations found in `paths`." = true :=
  C9_no_operations [] (Or.inl rfl)
